import Mathlib

/-!
# Verification of the `rest` router library

A shallow embedding of the library's registration-time handler analysis
(`buildHandler`), the per-kind path-parameter binders (`pathParamBuilder`),
the request-time dispatch loop, and the default JSON protocol
(`defaultProtocol.EncodeServerResponse` / `DecodeClientRequest`).

Machine integers are modelled as `Nat`/`Int` with explicit range checks,
mirroring `strconv.ParseInt`/`ParseUint` bit-size arguments.  Reflected Go
values are modelled by the inductive `GoVal`; the zero `reflect.Value`
(which `reflect.Call` rejects with a panic) is `GoVal.invalid`.
-/

namespace Rest

/-- The scalar kinds supported by `pathParamBuilder` (rest.go:218-346). -/
inductive ScalarKind
  | sstring
  | sfloat32
  | sfloat64
  | sint
  | sint8
  | sint16
  | sint32
  | sint64
  | suint
  | suint8
  | suint16
  | suint32
  | suint64
deriving DecidableEq, Repr

/-- Declared Go parameter types, as distinguished by `buildHandler`
(rest.go:140-168): `context.Context`, `*http.Request`, the scalar kinds
supported as path parameters, pointer types, and other (struct-like) types. -/
inductive PTy
  | ctx
  | req
  | scalar (k : ScalarKind)
  | ptr (elem : PTy)
  | structT (name : String)
deriving DecidableEq, Repr

/-- Declared Go return types, as distinguished by `buildHandler`'s return-shape
check (rest.go:125-130, 199): the `error` interface type, the `StatusCode`
type, and anything else. -/
inductive RTy
  | rerror
  | rstatus
  | rother
deriving DecidableEq, Repr

/-- A Go error value: either a `*ErrorResponse` (structured, carrying its own
HTTP status; part_000) or a plain error with only a message. -/
inductive GoErr
  | structured (status : Int) (msg : String)
  | plain (msg : String)
deriving DecidableEq, Repr

/-- `ErrorResponse.Error()` formats as "%d: %s" (part_000); a plain error's
`Error()` is its message. -/
def GoErr.text : GoErr → String
  | .structured s m => toString s ++ ": " ++ m
  | .plain m => m

/-- A reflected Go value produced by a binder.  `invalid` is the zero
`reflect.Value` (never explicitly constructed by correct code; it arises from
the variable-shadowing defect in the unsigned binders, rest.go:294-343). -/
inductive GoVal
  | vstr (s : String)
  | vint (n : Int)
  | vfloat (raw : String)
  | vctx
  | vreq
  | vjson (doc : String)
  | invalid
deriving DecidableEq, Repr

/-- An incoming HTTP request: method, the query parameters (the external `pat`
router stores matched path segments under keys ":name"), and the raw body
(`none` models an empty body / exhausted stream). -/
structure Req where
  method : String
  query : List (String × String)
  body : Option String
deriving DecidableEq, Repr

/-- `r.URL.Query().Get(":" + name)`: first value under the key, or "" when
absent. -/
def lookupSeg (r : Req) (name : String) : String :=
  (r.query.lookup (":" ++ name)).getD ""

/-- Decimal value of a digit character. -/
def digitVal (c : Char) : Nat := c.toNat - 48

/-- Value of a list of decimal digit characters, most significant first. -/
def decDigitsVal (cs : List Char) : Nat :=
  cs.foldl (fun a c => a * 10 + digitVal c) 0

/-- `strconv.ParseUint(s, 10, bits)`: digits only (no sign permitted), value
must fit in `bits` bits; `none` models a non-nil error (invalid syntax or
range error). -/
def parseUintGo (s : String) (bits : Nat) : Option Nat :=
  let cs := s.data
  if cs.isEmpty then none
  else if cs.all Char.isDigit then
    let n := decDigitsVal cs
    if n < 2 ^ bits then some n else none
  else none

/-- `strconv.ParseInt(s, 10, bits)`: optional leading sign, then digits; the
value must satisfy -2^(bits-1) ≤ n ≤ 2^(bits-1) - 1. -/
def parseIntGo (s : String) (bits : Nat) : Option Int :=
  match s.data with
  | [] => none
  | c :: rest =>
    let neg := c = '-'
    let digits := if c = '-' ∨ c = '+' then rest else c :: rest
    if digits.isEmpty then none
    else if digits.all Char.isDigit then
      let n := decDigitsVal digits
      if neg then
        if n ≤ 2 ^ (bits - 1) then some (-(n : Int)) else none
      else
        if n < 2 ^ (bits - 1) then some (n : Int) else none
    else none

/-- Syntactic acceptor modelling `strconv.ParseFloat` on the decimal forms a
path segment can take (optional sign, digits with at most one point).
Exponent and special forms are omitted: no claim verified here inspects a
parsed float's value, only whether parsing succeeds or fails. -/
def parseFloatAccepts (s : String) : Bool :=
  let cs :=
    match s.data with
    | [] => []
    | c :: rest => if c = '+' ∨ c = '-' then rest else c :: rest
  !cs.isEmpty && cs.all (fun c => c.isDigit || c = '.') &&
    decide (cs.count '.' ≤ 1) && cs.any Char.isDigit

/-- One path-parameter binder body from `pathParamBuilder` (rest.go:218-346),
applied to the raw segment string.  For the signed kinds the parsed value is
set on a freshly allocated `reflect.Value` and returned.  For the unsigned
kinds the source declares `var v reflect.Value` and then, inside
`if err == nil`, writes `v := reflect.New(...).Elem(); v.SetUint(n)` — the
short declaration shadows the outer `v`, so on success the OUTER, still-zero
`reflect.Value` is returned: modelled by `.ok GoVal.invalid`. -/
def pathBind (k : ScalarKind) (s : String) : Except String GoVal :=
  match k with
  | .sstring => .ok (.vstr s)
  | .sfloat32 =>
    if parseFloatAccepts s then .ok (.vfloat s) else .error ("invalid syntax: " ++ s)
  | .sfloat64 =>
    if parseFloatAccepts s then .ok (.vfloat s) else .error ("invalid syntax: " ++ s)
  | .sint =>
    match parseIntGo s 64 with
    | some n => .ok (.vint n)
    | none => .error ("invalid syntax: " ++ s)
  | .sint8 =>
    match parseIntGo s 8 with
    | some n => .ok (.vint n)
    | none => .error ("invalid syntax: " ++ s)
  | .sint16 =>
    match parseIntGo s 16 with
    | some n => .ok (.vint n)
    | none => .error ("invalid syntax: " ++ s)
  | .sint32 =>
    match parseIntGo s 32 with
    | some n => .ok (.vint n)
    | none => .error ("invalid syntax: " ++ s)
  | .sint64 =>
    match parseIntGo s 64 with
    | some n => .ok (.vint n)
    | none => .error ("invalid syntax: " ++ s)
  | .suint =>
    match parseUintGo s 64 with
    | some _ => .ok .invalid
    | none => .error ("invalid syntax: " ++ s)
  | .suint8 =>
    match parseUintGo s 8 with
    | some _ => .ok .invalid
    | none => .error ("invalid syntax: " ++ s)
  | .suint16 =>
    match parseUintGo s 16 with
    | some _ => .ok .invalid
    | none => .error ("invalid syntax: " ++ s)
  | .suint32 =>
    match parseUintGo s 32 with
    | some _ => .ok .invalid
    | none => .error ("invalid syntax: " ++ s)
  | .suint64 =>
    match parseUintGo s 64 with
    | some _ => .ok .invalid
    | none => .error ("invalid syntax: " ++ s)

/-- The binding strategy `buildHandler` records for one parameter. -/
inductive BinderSpec
  | bctx
  | breq
  | bpath (k : ScalarKind) (name : String)
  | bbody (elemTy : PTy)
deriving DecidableEq, Repr

/-- `pt.Elem()` when the body parameter's type is a pointer (rest.go:159-161),
identity otherwise. -/
def elemOfBody (pt : PTy) : PTy :=
  match pt with
  | .ptr e => e
  | t => t

/-- Registration part of `pathParamBuilder` (rest.go:218-346): a builder exists
for the thirteen scalar kinds; every other kind falls through the switch to
`panic("unsupported path parameter type ...")`. -/
def pathBinderSpec (pt : PTy) (name : String) : Except String BinderSpec :=
  match pt with
  | .scalar k => .ok (.bpath k name)
  | _ => .error ("unsupported path parameter type for parameter " ++ name)

/-- The behaviour of one recorded binder on a request (rest.go:143-165).  The
body binder delegates to `defaultProtocol.DecodeClientRequest`, i.e.
`json.NewDecoder(req.Body).Decode(v)` (part_000:79-81): decoding an empty
stream fails with `io.EOF`; a nonempty payload decodes into the fresh value. -/
def specBinder (spec : BinderSpec) (r : Req) : Except String GoVal :=
  match spec with
  | .bctx => .ok .vctx
  | .breq => .ok .vreq
  | .bpath k name => pathBind k (lookupSeg r name)
  | .bbody _ =>
    match r.body with
    | none => .error "EOF"
    | some d => .ok (.vjson d)

/-- The names of the `:`-prefixed path segments, in order (rest.go:134-138). -/
def pathParams (path : String) : List String :=
  (path.splitOn "/").filterMap
    (fun part => if part.startsWith ":" then some (part.drop 1) else none)

/-- The parameter-classification loop of `buildHandler` (rest.go:140-173),
carried out over the remaining parameter types with the current `paramIndex`
and `haveBody` state.  A returned `.error` models a registration-time panic. -/
def classifyLoop : List PTy → List String → Nat → Bool → Except String (List BinderSpec)
  | [], _, _, _ => .ok []
  | pt :: rest, params, paramIndex, haveBody =>
    match pt with
    | .ctx =>
      match classifyLoop rest params paramIndex haveBody with
      | .error e => .error e
      | .ok ss => .ok (.bctx :: ss)
    | .req =>
      match classifyLoop rest params paramIndex haveBody with
      | .error e => .error e
      | .ok ss => .ok (.breq :: ss)
    | _ =>
      if paramIndex < params.length then
        match pathBinderSpec pt (params.getD paramIndex "") with
        | .error e => .error e
        | .ok b =>
          match classifyLoop rest params (paramIndex + 1) haveBody with
          | .error e => .error e
          | .ok ss => .ok (b :: ss)
      else if haveBody then
        .error "have already mapped all path parameters and request body, but have arguments remaining"
      else
        match classifyLoop rest params paramIndex true with
        | .error e => .error e
        | .ok ss => .ok (.bbody (elemOfBody pt) :: ss)

/-- The return-shape check of `buildHandler` (rest.go:125-130): at least one
return value, and the last must be exactly the `error` interface type.
Nothing else about the return list is checked at registration. -/
def checkReturnShape (outs : List RTy) : Except String Unit :=
  if outs.isEmpty then
    .error "expected return signature of the form (..., error) but got none"
  else if outs.getLast? = some RTy.rerror then .ok ()
  else .error "expected return signature of the form (..., error)"

/-- Registration-time work of `buildHandler` (rest.go:121-173): check the
return shape, then classify the parameters against the path's named
segments.  A returned `.error` models a panic. -/
def buildHandler (path : String) (ins : List PTy) (outs : List RTy) :
    Except String (List BinderSpec) :=
  match checkReturnShape outs with
  | .error e => .error e
  | .ok _ => classifyLoop ins (pathParams path) 0 false

/-- `true` on `.ok`, `false` on `.error`; a registration that does not panic. -/
def isOkE {α : Type} (e : Except String α) : Bool :=
  match e with
  | .ok _ => true
  | .error _ => false

/-- One reflected return value of the handler, as the dispatch switch
distinguishes them (rest.go:186-214): a value of the distinguished
`StatusCode` type, a value of some other signed-integer kind (on which
`reflect.Value.Int()` is defined), or anything else (on which `Int()`
panics). -/
inductive RetV
  | status (c : Int)
  | intV (n : Int)
  | otherV (v : GoVal)
deriving DecidableEq, Repr

/-- `ret.Type() == reflect.TypeOf(StatusCode(0))` (rest.go:199). -/
def RetV.isStatusCodeType : RetV → Bool
  | .status _ => true
  | _ => false

/-- The `StatusCode` value carried by a `StatusCode`-typed return. -/
def RetV.statusVal : RetV → Int
  | .status c => c
  | _ => 0

/-- `ret.Int()` (rest.go:210): defined on signed-integer kinds, panics
otherwise (`none`). -/
def retIntValue : RetV → Option Int
  | .status c => c
  | .intV n => n
  | .otherV _ => none

/-- A value handed to the protocol encoder as the response body `v`: either a
handler-returned value, or a structured `ErrorResponse` payload. -/
inductive Body
  | ofRet (r : RetV)
  | errResp (status : Int) (msg : String)
deriving DecidableEq, Repr

/-- The value list returned by `fv.Call`, tagged by the arity the dispatch
switch branches on (rest.go:186): one, two or three values (the last being
the `error` slot), or four-and-more values, for which the switch has no case. -/
inductive HRet
  | r1 (e : Option GoErr)
  | r2 (v : RetV) (e : Option GoErr)
  | r3 (v : RetV) (m : RetV) (e : Option GoErr)
  | rmore (e : Option GoErr)
deriving Repr

/-- What the dispatcher does with the handler's result: call
`EncodeServerResponse(req, w, code, err, v)`, fall through the switch writing
nothing, or panic. -/
inductive DispatchAct
  | encode (code : Int) (err : Option GoErr) (v : Option Body)
  | noWrite
  | panicked (msg : String)
deriving DecidableEq, Repr

/-- The `switch len(ret)` of the generated handler (rest.go:186-214).  In every
arity the error slot is examined first; with a nil error the two-value case
branches on the first value's type being `StatusCode`, and the three-value
case calls `ret[1].Int()`, which panics when the middle value is not of a
signed-integer kind.  Arities of four or more match no case: nothing is
written. -/
def interpretReturn : HRet → DispatchAct
  | .r1 e =>
    match e with
    | some err => .encode 0 (some err) none
    | none => .encode 0 none none
  | .r2 v e =>
    match e with
    | some err => .encode 0 (some err) none
    | none =>
      if v.isStatusCodeType then .encode v.statusVal none none
      else .encode 0 none (some (.ofRet v))
  | .r3 v m e =>
    match e with
    | some err => .encode 0 (some err) none
    | none =>
      match retIntValue m with
      | some c => .encode c none (some (.ofRet v))
      | none => .panicked "reflect: call of reflect.Value.Int on non-int Value"
  | .rmore _ => .noWrite

/-- The binder loop of the generated handler (rest.go:177-184): binders run in
declared order; the first failure is returned and no later binder runs. -/
def runBinders : List (Req → Except String GoVal) → Req → Except String (List GoVal)
  | [], _ => .ok []
  | b :: bs, r =>
    match b r with
    | .error e => .error e
    | .ok v =>
      match runBinders bs r with
      | .error e => .error e
      | .ok vs => .ok (v :: vs)

/-- The generated per-route handler (rest.go:174-215): run the binders; on the
first failure call the protocol with status 422 and the binder's error
(`returnError`, rest.go:77-80); otherwise `fv.Call` the handler —
`reflect.Call` panics if any argument is the zero `reflect.Value` — and
interpret its return values. -/
def dispatch (binders : List (Req → Except String GoVal)) (h : List GoVal → HRet)
    (r : Req) : DispatchAct :=
  match runBinders binders r with
  | .error e => .encode 422 (some (.plain e)) none
  | .ok vals =>
    if vals.any (fun v => v = GoVal.invalid) then
      .panicked "reflect: Call using zero Value argument"
    else interpretReturn (h vals)

/-- The written HTTP response of the default protocol: final status and the
value handed to the JSON encoder as the body (`none` is Go's nil `v`). -/
structure Response where
  status : Int
  body : Option Body
deriving DecidableEq, Repr

/-- The non-error branch of `defaultProtocol.EncodeServerResponse`
(part_000:97-108): a zero status defaults to 201 for POST requests, else 204
when the body value is nil, else 200; then the status and body are written. -/
def encodeNoErr (method : String) (code : Int) (v : Option Body) : Response :=
  let code :=
    if code = 0 then
      if method = "POST" then 201 else if v = none then 204 else 200
    else code
  { status := code, body := v }

/-- `defaultProtocol.EncodeServerResponse` (part_000:83-109).  When `err` is
non-nil it is turned into a `*ErrorResponse` — reused as-is when it already
is one (its `Status` becoming the status), else wrapped with the given status
(500 when that is 0) and the error's text — and the source recurses with the
error cleared and the `ErrorResponse` as the body; that recursive call takes
the non-error branch at once, so the single recursion step is unrolled here
into `encodeNoErr`. -/
def encodeServerResponse (method : String) (code : Int) (err : Option GoErr)
    (v : Option Body) : Response :=
  match err with
  | some e =>
    match e with
    | .structured s m => encodeNoErr method s (some (.errResp s m))
    | .plain m =>
      let c := if code = 0 then 500 else code
      encodeNoErr method c (some (.errResp c m))
  | none => encodeNoErr method code v

/-- The observable outcome of one request: a written response, nothing
written, or a panic. -/
inductive Outcome
  | resp (r : Response)
  | noWrite
  | panicked (msg : String)
deriving DecidableEq, Repr

/-- Whether a response was written. -/
def Outcome.wrote : Outcome → Bool
  | .resp _ => true
  | _ => false

/-- Hand the dispatcher's action to the default protocol. -/
def applyProtocol (act : DispatchAct) (method : String) : Outcome :=
  match act with
  | .encode c e v => .resp (encodeServerResponse method c e v)
  | .noWrite => .noWrite
  | .panicked m => .panicked m

/-- The full request-time pipeline of one route under the default protocol. -/
def serve (binders : List (Req → Except String GoVal)) (h : List GoVal → HRet)
    (r : Req) : Outcome :=
  applyProtocol (dispatch binders h r) r.method

/-- `true` for parameter types `buildHandler` binds as passthroughs without
consuming a path-segment slot (rest.go:143-150). -/
def isPassthrough : PTy → Bool
  | .ctx => true
  | .req => true
  | _ => false

/-- The number of parameters that are neither context nor request typed, i.e.
those that consume a path segment or the body slot. -/
def eligibleCount : List PTy → Nat
  | [] => 0
  | t :: rest => (if isPassthrough t then 0 else 1) + eligibleCount rest

/-- Per-position correspondence between a declared parameter type and the
binding recorded for it. -/
def corrB : PTy → BinderSpec → Bool
  | .ctx, .bctx => true
  | .req, .breq => true
  | t, .bpath k _ => t = PTy.scalar k
  | t, .bbody e => !isPassthrough t && e = elemOfBody t
  | _, _ => false

/-- The path-segment name a recorded binding consumes, if any. -/
def segNameOf : BinderSpec → Option String
  | .bpath _ n => some n
  | _ => none

/-- Whether a recorded binding is the body binding. -/
def isBodySpec : BinderSpec → Bool
  | .bbody _ => true
  | _ => false

/-- The eligible bindings in order, a path binding as its segment name and the
body binding as `none`; passthroughs are dropped. -/
def eligTagOf : BinderSpec → Option (Option String)
  | .bpath _ n => some (some n)
  | .bbody _ => some none
  | _ => none

/-- A return-value shape the dispatch switch handles without panicking: any
one- or two-value result, a three-value result whose error is non-nil or
whose middle value has a signed-integer kind.  Four or more values match no
case. -/
def goodRet : HRet → Bool
  | .r1 _ => true
  | .r2 _ _ => true
  | .r3 _ m e => e.isSome || (retIntValue m).isSome
  | .rmore _ => false

/-- If every binder before `bad` succeeds and `bad` fails with `e`, the binder
loop stops at `bad` and returns `e`, whatever comes after. -/
theorem runBinders_append_fail
    (pre post : List (Req → Except String GoVal)) (bad : Req → Except String GoVal)
    (r : Req) (e : String)
    (hpre : ∀ b ∈ pre, ∃ v, b r = .ok v) (hbad : bad r = .error e) :
    runBinders (pre ++ bad :: post) r = .error e := by
  induction pre with
  | nil => simp [runBinders, hbad]
  | cons b bs ih =>
    obtain ⟨v, hv⟩ := hpre b (by simp)
    have hrest := ih (fun b2 hb2 => hpre b2 (by simp [hb2]))
    simp [runBinders, hv, hrest]

/-- If some binder in the list fails on `r`, the binder loop fails on `r`. -/
theorem runBinders_fails_of_mem
    (binders : List (Req → Except String GoVal)) (r : Req)
    (hex : ∃ b ∈ binders, ∃ e, b r = .error e) :
    ∃ e, runBinders binders r = .error e := by
  induction binders with
  | nil => simp at hex
  | cons b bs ih =>
    obtain ⟨b2, hmem, e2, he2⟩ := hex
    rcases List.mem_cons.mp hmem with h1 | h2
    · subst h1
      exact ⟨e2, by simp [runBinders, he2]⟩
    · cases hb : b r with
      | error e3 => exact ⟨e3, by simp [runBinders, hb]⟩
      | ok v =>
        obtain ⟨e3, he3⟩ := ih ⟨b2, h2, e2, he2⟩
        exact ⟨e3, by simp [runBinders, hb, he3]⟩

/-- C1: for the unsigned path-parameter kinds the source's variable-shadowing
defect makes the binder return the outer, never-assigned `reflect.Value`
with a nil error: parsing the segment "5" as a `uint` parameter yields the
invalid value instead of 5 (the signed binder, in contrast, yields 5), and a
route with a `uint` path parameter panics inside `reflect.Call` on the
request, so the round-trip claimed for the unsigned kinds fails. -/
theorem c1_unsigned_binder_drops_parsed_value :
    pathBind ScalarKind.suint "5" = Except.ok GoVal.invalid ∧
    pathBind ScalarKind.sint "5" = Except.ok (GoVal.vint 5) ∧
    serve [specBinder (BinderSpec.bpath ScalarKind.suint "id")] (fun _ => HRet.r1 none)
      { method := "GET", query := [(":id", "5")], body := none } =
      Outcome.panicked "reflect: Call using zero Value argument" := by
  refine ⟨rfl, rfl, rfl⟩

/-- C2 counterexample: a handler with four return values whose last is an
error passes the registration-time checks — `buildHandler` only rejects an
empty return list or a non-error last return, so a return arity greater than
3 does not cause a registration-time failure. -/
theorem c2_cex_arity_four_accepted :
    isOkE (buildHandler "/x" [] [RTy.rother, RTy.rother, RTy.rother, RTy.rerror]) = true := by
  decide

/-- C2 amended: the return-shape check of registration succeeds exactly when
there is at least one return value and the last one is the error type; the
arity is otherwise unconstrained. -/
theorem c2_return_shape_characterization (outs : List RTy) :
    isOkE (checkReturnShape outs) = true ↔
      outs ≠ [] ∧ outs.getLast? = some RTy.rerror := by
  cases outs with
  | nil => simp [checkReturnShape, isOkE]
  | cons a l =>
    by_cases hl : (a :: l).getLast? = some RTy.rerror <;>
      simp [checkReturnShape, isOkE, hl]

/-- C4: whenever the handler's last return value is a non-nil error, the
dispatch switch calls the protocol encoder with status 0, that error, and a
nil body — for each of the three handled arities and regardless of the other
returned values. -/
theorem c4_nonnil_error_wins_all_arities (v m : RetV) (e : GoErr) :
    interpretReturn (HRet.r1 (some e)) = DispatchAct.encode 0 (some e) none ∧
    interpretReturn (HRet.r2 v (some e)) = DispatchAct.encode 0 (some e) none ∧
    interpretReturn (HRet.r3 v m (some e)) = DispatchAct.encode 0 (some e) none :=
  ⟨rfl, rfl, rfl⟩

/-- C5 counterexample: the default protocol tests the method before the body,
so a POST request with no body gets status 201, not the 204 the claim
assigns to body-less responses. -/
theorem c5_cex_post_without_body_defaults_201 :
    (encodeServerResponse "POST" 0 none none).status = 201 ∧
    ¬ (encodeServerResponse "POST" 0 none none).status = 204 := by
  decide

/-- C5 amended: with a nil error and status 0, a POST request defaults to 201
regardless of body presence; otherwise a nil body defaults to 204, and any
other case to 200.  The body value is written unchanged. -/
theorem c5_default_status_rule (method : String) (v : Option Body) :
    encodeServerResponse method 0 none v =
      { status := if method = "POST" then 201 else if v = none then 204 else 200,
        body := v } := by
  simp [encodeServerResponse, encodeNoErr]

/-- C6: a non-nil error is translated into a structured `ErrorResponse` — a
structured error's own status is reused and passed on verbatim, a plain
error is wrapped with the given status or 500 when that is 0 — and the
result is produced by the same encoder re-entered with the error cleared and
the `ErrorResponse` as body, which settles on the non-error branch; for a
structured error with non-zero status the written status is exactly that
status, and for a plain error with status 0 it is exactly 500. -/
theorem c6_error_translation (method : String) (code : Int) (v : Option Body) :
    (∀ s m, encodeServerResponse method code (some (GoErr.structured s m)) v =
        encodeServerResponse method s none (some (Body.errResp s m))) ∧
    (∀ m, encodeServerResponse method code (some (GoErr.plain m)) v =
        encodeServerResponse method (if code = 0 then 500 else code) none
          (some (Body.errResp (if code = 0 then 500 else code) m))) ∧
    (∀ s m, s ≠ 0 → encodeServerResponse method code (some (GoErr.structured s m)) v =
        { status := s, body := some (Body.errResp s m) }) ∧
    (∀ m, code = 0 → encodeServerResponse method code (some (GoErr.plain m)) v =
        { status := 500, body := some (Body.errResp 500 m) }) := by
  refine ⟨fun s m => rfl, fun m => rfl, fun s m hs => ?_, fun m hc => ?_⟩
  · simp [encodeServerResponse, encodeNoErr, hs]
  · subst hc
    simp [encodeServerResponse, encodeNoErr]

/-- Witness for C6 at concrete inputs. -/
theorem c6_witness :
    encodeServerResponse "GET" 7 (some (GoErr.structured 400 "bad")) none =
        { status := 400, body := some (Body.errResp 400 "bad") } ∧
    encodeServerResponse "GET" 0 (some (GoErr.plain "boom")) none =
        { status := 500, body := some (Body.errResp 500 "boom") } :=
  ⟨(c6_error_translation "GET" 7 none).2.2.1 400 "bad" (by decide),
   (c6_error_translation "GET" 0 none).2.2.2 "boom" rfl⟩

/-- C9 counterexample: a three-value return signature with a non-integer
middle type is accepted at registration (only the last return is checked),
yet on a request whose handler returns a nil error the dispatcher calls
`reflect.Value.Int` on the middle value and panics, so no response is
written — the claimed "a response is always written" fails. -/
theorem c9_cex_three_value_non_int_middle_not_written :
    isOkE (checkReturnShape [RTy.rother, RTy.rother, RTy.rerror]) = true ∧
    Outcome.wrote (serve []
      (fun _ => HRet.r3 (RetV.otherV (GoVal.vstr "a")) (RetV.otherV (GoVal.vstr "b")) none)
      { method := "GET", query := [], body := none }) = false :=
  ⟨rfl, rfl⟩

/-- C3: the dispatcher runs binders in declared order; when every binder
before `bad` succeeds and `bad` fails with reason `e`, the protocol is
called with status 422 and that reason, the handler is never invoked and the
binders after `bad` are never run — the outcome is the same for every
handler and every list of later binders, and under the default protocol the
written response has status 422 and carries the reason. -/
theorem c3_first_binder_failure_gives_422
    (pre post : List (Req → Except String GoVal)) (bad : Req → Except String GoVal)
    (h : List GoVal → HRet) (r : Req) (e : String)
    (hpre : ∀ b ∈ pre, ∃ v, b r = .ok v) (hbad : bad r = .error e) :
    dispatch (pre ++ bad :: post) h r =
      DispatchAct.encode 422 (some (GoErr.plain e)) none ∧
    serve (pre ++ bad :: post) h r =
      Outcome.resp { status := 422, body := some (Body.errResp 422 e) } := by
  have hrb := runBinders_append_fail pre post bad r e hpre hbad
  constructor
  · simp [dispatch, hrb]
  · simp [serve, dispatch, hrb, applyProtocol, encodeServerResponse, encodeNoErr]

/-- Witness for C3 at a concrete route. -/
theorem c3_witness :
    dispatch [fun _ => Except.ok GoVal.vctx, fun _ => Except.error "bad segment",
        fun _ => Except.ok GoVal.vreq]
      (fun _ => HRet.r1 none) { method := "GET", query := [], body := none } =
      DispatchAct.encode 422 (some (GoErr.plain "bad segment")) none := by
  have h := c3_first_binder_failure_gives_422 [fun _ => Except.ok GoVal.vctx]
    [fun _ => Except.ok GoVal.vreq] (fun _ => Except.error "bad segment")
    (fun _ => HRet.r1 none) { method := "GET", query := [], body := none } "bad segment"
    (by intro b hb; simp at hb; subst hb; exact ⟨GoVal.vctx, rfl⟩) rfl
  simpa using h.1

/-- C7: an (error)-only handler returning nil leads to the encoder being
called with status 0, nil error and nil body, so the written response has no
body and the default status — 201 when the method is POST, 204 (no content)
otherwise — whenever all binders succeed with callable values. -/
theorem c7_error_only_nil_no_body_default_status
    (binders : List (Req → Except String GoVal)) (r : Req) (vals : List GoVal)
    (hb : runBinders binders r = .ok vals)
    (hv : vals.any (fun v => v = GoVal.invalid) = false) :
    serve binders (fun _ => HRet.r1 none) r =
      Outcome.resp { status := if r.method = "POST" then 201 else 204, body := none } := by
  simp [serve, dispatch, hb, hv, interpretReturn, applyProtocol,
    encodeServerResponse, encodeNoErr]

/-- Witness for C7 at a concrete route. -/
theorem c7_witness :
    serve [] (fun _ => HRet.r1 none) { method := "GET", query := [], body := none } =
      Outcome.resp { status := 204, body := none } := by
  have h := c7_error_only_nil_no_body_default_status []
    { method := "GET", query := [], body := none } [] rfl rfl
  simpa using h

/-- C9 amended: for every route whose handler only produces return shapes the
dispatch switch handles without panicking (any one- or two-value shape, and
three-value shapes whose middle value is integer-kinded or whose error is
non-nil) and whose binders never produce the invalid value, a response is
always written: every binder failure and every handler error surfaces as an
HTTP response.  (The unamended claim fails for three-value signatures with a
non-integer middle value and for arities above three.) -/
theorem c9_good_shapes_always_write
    (binders : List (Req → Except String GoVal)) (h : List GoVal → HRet) (r : Req)
    (hgood : ∀ vals, goodRet (h vals) = true)
    (hnoinv : ∀ vals, runBinders binders r = .ok vals →
        vals.any (fun v => v = GoVal.invalid) = false) :
    Outcome.wrote (serve binders h r) = true := by
  unfold serve dispatch
  cases hrb : runBinders binders r with
  | error e => simp [applyProtocol, Outcome.wrote]
  | ok vals =>
    have hni := hnoinv vals hrb
    have hg := hgood vals
    cases hret : h vals with
    | r1 e => cases e <;> simp [hni, hret, interpretReturn, applyProtocol, Outcome.wrote]
    | r2 v e =>
      cases e with
      | none =>
        by_cases hs : v.isStatusCodeType <;>
          simp [hni, hret, interpretReturn, hs, applyProtocol, Outcome.wrote]
      | some err => simp [hni, hret, interpretReturn, applyProtocol, Outcome.wrote]
    | r3 v m e =>
      cases e with
      | none =>
        rw [hret] at hg
        simp [goodRet] at hg
        obtain ⟨c, hc⟩ := Option.isSome_iff_exists.mp hg
        simp [hni, hret, interpretReturn, hc, applyProtocol, Outcome.wrote]
      | some err => simp [hni, hret, interpretReturn, applyProtocol, Outcome.wrote]
    | rmore e =>
      rw [hret] at hg
      simp [goodRet] at hg

/-- Witness for the amended C9 at a concrete route. -/
theorem c9_witness :
    Outcome.wrote (serve [] (fun _ => HRet.r1 none)
      { method := "GET", query := [], body := none }) = true :=
  c9_good_shapes_always_write [] (fun _ => HRet.r1 none)
    { method := "GET", query := [], body := none } (fun _ => rfl)
    (fun vals hv => by cases hv; rfl)

/-- C10: on a route whose classification assigned a body binding, a request
with an empty body is answered with a 422 binder-failure response under the
default protocol (JSON-decoding the empty stream fails with EOF before the
handler can run) — for every HTTP method, GET included, and also when the
body parameter's declared type is a pointer. -/
theorem c10_empty_body_yields_422 (ins : List PTy) (params : List String)
    (specs : List BinderSpec) (t : PTy) (h : List GoVal → HRet) (r : Req)
    (_hclass : classifyLoop ins params 0 false = .ok specs)
    (hmem : BinderSpec.bbody t ∈ specs) (hbody : r.body = none) :
    ∃ msg, serve (specs.map specBinder) h r =
      Outcome.resp { status := 422, body := some (Body.errResp 422 msg) } := by
  have hfail : ∃ b ∈ specs.map specBinder, ∃ e, b r = .error e := by
    refine ⟨specBinder (BinderSpec.bbody t), List.mem_map_of_mem _ hmem, "EOF", ?_⟩
    simp [specBinder, hbody]
  obtain ⟨e, he⟩ := runBinders_fails_of_mem _ r hfail
  exact ⟨e, by simp [serve, dispatch, he, applyProtocol, encodeServerResponse, encodeNoErr]⟩

/-- Unfolding of the classification loop at a non-passthrough parameter. -/
theorem classifyLoop_cons_eligible (pt : PTy) (rest : List PTy) (params : List String)
    (pi : Nat) (hb : Bool) (hpass : isPassthrough pt = false) :
    classifyLoop (pt :: rest) params pi hb =
      (if pi < params.length then
        match pathBinderSpec pt (params.getD pi "") with
        | .error e => .error e
        | .ok b =>
          match classifyLoop rest params (pi + 1) hb with
          | .error e => .error e
          | .ok ss => .ok (b :: ss)
      else if hb then
        .error "have already mapped all path parameters and request body, but have arguments remaining"
      else
        match classifyLoop rest params pi true with
        | .error e => .error e
        | .ok ss => .ok (.bbody (elemOfBody pt) :: ss)) := by
  cases pt with
  | ctx => simp [isPassthrough] at hpass
  | req => simp [isPassthrough] at hpass
  | scalar k => rfl
  | ptr e => rfl
  | structT n => rfl

/-- A path binder can only be built for a supported scalar kind, and it binds
the given segment name. -/
theorem pathBinderSpec_ok (pt : PTy) (nm : String) (b : BinderSpec)
    (h : pathBinderSpec pt nm = .ok b) :
    ∃ k, pt = PTy.scalar k ∧ b = BinderSpec.bpath k nm := by
  cases pt <;> simp [pathBinderSpec] at h
  case scalar k => exact ⟨k, rfl, h.symm⟩

/-- Failure direction of the classification loop: when the non-passthrough
parameters outnumber the remaining path segments plus the (at most one)
still-free body slot, classification fails. -/
theorem classify_overflow_fails (ins : List PTy) :
    ∀ (params : List String) (pi : Nat) (hb : Bool),
      params.length - pi + cond hb 0 1 < eligibleCount ins →
      ∃ msg, classifyLoop ins params pi hb = .error msg := by
  induction ins with
  | nil =>
    intro params pi hb hlt
    simp [eligibleCount] at hlt
  | cons pt rest ih =>
    intro params pi hb hlt
    by_cases hpass : isPassthrough pt = true
    · have hE : eligibleCount (pt :: rest) = eligibleCount rest := by
        simp [eligibleCount, hpass]
      rw [hE] at hlt
      obtain ⟨msg, hmsg⟩ := ih params pi hb hlt
      cases pt with
      | ctx => exact ⟨msg, by simp [classifyLoop, hmsg]⟩
      | req => exact ⟨msg, by simp [classifyLoop, hmsg]⟩
      | scalar k => simp [isPassthrough] at hpass
      | ptr e => simp [isPassthrough] at hpass
      | structT n => simp [isPassthrough] at hpass
    · have hpass2 : isPassthrough pt = false := by
        cases hp : isPassthrough pt
        · rfl
        · exact absurd hp hpass
      have hE : eligibleCount (pt :: rest) = 1 + eligibleCount rest := by
        simp [eligibleCount, hpass2]
      rw [hE] at hlt
      rw [classifyLoop_cons_eligible pt rest params pi hb hpass2]
      by_cases hlt2 : pi < params.length
      · rw [if_pos hlt2]
        cases hps : pathBinderSpec pt (params.getD pi "") with
        | error e => exact ⟨e, rfl⟩
        | ok b =>
          have harith : params.length - (pi + 1) + cond hb 0 1 < eligibleCount rest := by
            cases hb <;> simp at hlt ⊢ <;> omega
          obtain ⟨msg, hmsg⟩ := ih params (pi + 1) hb harith
          exact ⟨msg, by rw [hmsg]⟩
      · rw [if_neg hlt2]
        cases hb with
        | true => exact ⟨_, rfl⟩
        | false =>
          have harith : params.length - pi + cond true 0 1 < eligibleCount rest := by
            simp at hlt ⊢
            omega
          obtain ⟨msg, hmsg⟩ := ih params pi true harith
          exact ⟨msg, by rw [if_neg (by simp), hmsg]⟩

/-- Success direction of the classification loop, generalized over the loop
state: per-position correspondence of parameter types and recorded bindings;
path-segment names consumed left-to-right starting at the current index;
every path binding preceding the (at most one) body binding; the body
binding present exactly when the eligible parameters exceed the remaining
segments; and the eligible parameters never exceeding the remaining segments
plus the free body slot. -/
theorem classify_ok_properties (ins : List PTy) :
    ∀ (params : List String) (pi : Nat) (hb : Bool) (specs : List BinderSpec),
      classifyLoop ins params pi hb = .ok specs →
      List.Forall₂ (fun t s => corrB t s = true) ins specs ∧
      specs.filterMap segNameOf = (params.drop pi).take (eligibleCount ins) ∧
      specs.filterMap eligTagOf = (specs.filterMap segNameOf).map some ++
        List.replicate ((specs.filter isBodySpec).length) (none : Option String) ∧
      (specs.filter isBodySpec).length = eligibleCount ins - (params.length - pi) ∧
      eligibleCount ins ≤ (params.length - pi) + cond hb 0 1 := by
  induction ins with
  | nil =>
    intro params pi hb specs h
    simp [classifyLoop] at h
    subst h
    simp [eligibleCount]
  | cons pt rest ih =>
    intro params pi hb specs h
    by_cases hpass : isPassthrough pt = true
    · have hpt : pt = PTy.ctx ∨ pt = PTy.req := by
        cases pt <;> simp [isPassthrough] at hpass <;> simp
      have hstep : ∃ ss, classifyLoop rest params pi hb = .ok ss ∧
          specs = (if pt = PTy.ctx then BinderSpec.bctx else BinderSpec.breq) :: ss := by
        rcases hpt with h1 | h1 <;> subst h1 <;>
          (simp only [classifyLoop] at h
           cases hrec : classifyLoop rest params pi hb <;> rw [hrec] at h <;> simp at h) <;>
          exact ⟨_, rfl, by simp [h.symm]⟩
      obtain ⟨ss, hrec, hspecs⟩ := hstep
      subst hspecs
      obtain ⟨h1, h2, h3, h4, h5⟩ := ih params pi hb ss hrec
      have hE : eligibleCount (pt :: rest) = eligibleCount rest := by
        simp [eligibleCount, hpass]
      have hcorr : corrB pt (if pt = PTy.ctx then BinderSpec.bctx else BinderSpec.breq) = true := by
        rcases hpt with h1 | h1 <;> subst h1 <;> simp [corrB]
      have hname : segNameOf (if pt = PTy.ctx then BinderSpec.bctx else BinderSpec.breq) = none := by
        rcases hpt with h1 | h1 <;> subst h1 <;> simp [segNameOf]
      have htag : eligTagOf (if pt = PTy.ctx then BinderSpec.bctx else BinderSpec.breq) = none := by
        rcases hpt with h1 | h1 <;> subst h1 <;> simp [eligTagOf]
      have hbody : isBodySpec (if pt = PTy.ctx then BinderSpec.bctx else BinderSpec.breq) = false := by
        rcases hpt with h1 | h1 <;> subst h1 <;> simp [isBodySpec]
      refine ⟨List.Forall₂.cons hcorr h1, ?_, ?_, ?_, ?_⟩
      · simp [List.filterMap_cons, hname, h2, hE]
      · simp [List.filterMap_cons, hname, htag, List.filter_cons, hbody, h3]
      · simp [List.filter_cons, hbody, h4, hE]
      · rw [hE]; exact h5
    · have hpass2 : isPassthrough pt = false := by
        cases hp : isPassthrough pt
        · rfl
        · exact absurd hp hpass
      have hE : eligibleCount (pt :: rest) = 1 + eligibleCount rest := by
        simp [eligibleCount, hpass2]
      rw [classifyLoop_cons_eligible pt rest params pi hb hpass2] at h
      by_cases hlt2 : pi < params.length
      · rw [if_pos hlt2] at h
        cases hps : pathBinderSpec pt (params.getD pi "") with
        | error e => rw [hps] at h; cases h
        | ok b =>
          rw [hps] at h
          obtain ⟨k, hk, hbv⟩ := pathBinderSpec_ok pt (params.getD pi "") b hps
          cases hrec : classifyLoop rest params (pi + 1) hb with
          | error e => rw [hrec] at h; cases h
          | ok ss =>
            rw [hrec] at h
            simp at h
            subst hk
            subst hbv
            obtain ⟨h1, h2, h3, h4, h5⟩ := ih params (pi + 1) hb ss hrec
            have hdrop : params.drop pi = params.getD pi "" :: params.drop (pi + 1) := by
              rw [List.getD_eq_getElem params "" hlt2]
              exact List.drop_eq_getElem_cons hlt2
            subst h
            refine ⟨List.Forall₂.cons (by simp [corrB]) h1, ?_, ?_, ?_, ?_⟩
            · simp [List.filterMap_cons, segNameOf, hdrop, hE, Nat.add_comm 1 (eligibleCount rest),
                List.take_succ_cons, h2]
            · simp [List.filterMap_cons, segNameOf, eligTagOf, List.filter_cons, isBodySpec, h3]
            · simp only [List.filter_cons, isBodySpec, List.filterMap_cons]
              rw [hE]
              have := h4
              cases hb <;> simp at h5 ⊢ <;> omega
            · rw [hE]
              cases hb <;> simp at h5 ⊢ <;> omega
      · rw [if_neg hlt2] at h
        cases hb with
        | true => cases h
        | false =>
          rw [if_neg (by simp)] at h
          cases hrec : classifyLoop rest params pi true with
          | error e => rw [hrec] at h; cases h
          | ok ss =>
            rw [hrec] at h
            simp at h
            obtain ⟨h1, h2, h3, h4, h5⟩ := ih params pi true ss hrec
            have hE0 : eligibleCount rest = 0 := by
              simp at h5
              omega
            have hss : ss.filterMap segNameOf = [] := by
              rw [h2, hE0]
              simp
            have hdropnil : params.drop pi = [] :=
              List.drop_eq_nil_of_le (by omega)
            subst h
            refine ⟨List.Forall₂.cons (by simp [corrB, hpass2]) h1, ?_, ?_, ?_, ?_⟩
            · simp only [List.filterMap_cons, segNameOf]
              rw [hss, hdropnil]
              simp
            · simp only [List.filterMap_cons, segNameOf, eligTagOf, List.filter_cons,
                isBodySpec, hss, List.replicate_succ]
              simp [h3, hss, List.replicate_succ]
            · have hfz : (List.filter isBodySpec ss).length = 0 := by
                rw [h4, hE0]
                simp
              have hlen : (List.filter isBodySpec (BinderSpec.bbody (elemOfBody pt) :: ss)).length
                  = (List.filter isBodySpec ss).length + 1 := by
                simp [List.filter_cons, isBodySpec]
              rw [hlen, hfz, hE, hE0]
              omega
            · have hzero : params.length - pi = 0 := by omega
              rw [hE, hE0, hzero]
              decide

/-- C8: parameter classification proceeds in declared order — on success,
context and request parameters map to passthrough bindings without consuming
a segment, the other parameters consume the named segments strictly
left-to-right by position (the recorded segment names are exactly a prefix
of the declared segment list, in order, all before any body binding), at
most one body binding exists and it exists exactly when the eligible
parameters exceed the segments; and when the eligible parameters exceed the
segments by more than the single body slot, registration fails. -/
theorem c8_parameter_classification (ins : List PTy) (params : List String) :
    (∀ specs, classifyLoop ins params 0 false = .ok specs →
      List.Forall₂ (fun t s => corrB t s = true) ins specs ∧
      specs.filterMap segNameOf = params.take (eligibleCount ins) ∧
      specs.filterMap eligTagOf = (specs.filterMap segNameOf).map some ++
        List.replicate ((specs.filter isBodySpec).length) (none : Option String) ∧
      (specs.filter isBodySpec).length = eligibleCount ins - params.length ∧
      eligibleCount ins ≤ params.length + 1) ∧
    (params.length + 1 < eligibleCount ins →
      ∃ msg, classifyLoop ins params 0 false = .error msg) := by
  constructor
  · intro specs h
    have := classify_ok_properties ins params 0 false specs h
    simpa using this
  · intro hover
    exact classify_overflow_fails ins params 0 false (by simpa using hover)

/-- Witness for C8: a route with a context parameter, one path segment, a
path parameter and a body parameter classifies as expected, and the same
route with one extra trailing parameter fails registration. -/
theorem c8_witness :
    (List.Forall₂ (fun t s => corrB t s = true)
      [PTy.ctx, PTy.scalar ScalarKind.sint, PTy.structT "B"]
      [BinderSpec.bctx, BinderSpec.bpath ScalarKind.sint "id", BinderSpec.bbody (PTy.structT "B")] ∧
      [BinderSpec.bctx, BinderSpec.bpath ScalarKind.sint "id",
        BinderSpec.bbody (PTy.structT "B")].filterMap segNameOf =
        ["id"].take (eligibleCount [PTy.ctx, PTy.scalar ScalarKind.sint, PTy.structT "B"]) ∧
      [BinderSpec.bctx, BinderSpec.bpath ScalarKind.sint "id",
        BinderSpec.bbody (PTy.structT "B")].filterMap eligTagOf =
        ([BinderSpec.bctx, BinderSpec.bpath ScalarKind.sint "id",
          BinderSpec.bbody (PTy.structT "B")].filterMap segNameOf).map some ++
        List.replicate (([BinderSpec.bctx, BinderSpec.bpath ScalarKind.sint "id",
          BinderSpec.bbody (PTy.structT "B")].filter isBodySpec).length) (none : Option String) ∧
      ([BinderSpec.bctx, BinderSpec.bpath ScalarKind.sint "id",
        BinderSpec.bbody (PTy.structT "B")].filter isBodySpec).length =
        eligibleCount [PTy.ctx, PTy.scalar ScalarKind.sint, PTy.structT "B"] - ["id"].length ∧
      eligibleCount [PTy.ctx, PTy.scalar ScalarKind.sint, PTy.structT "B"] ≤ ["id"].length + 1) ∧
    (∃ msg, classifyLoop [PTy.structT "A", PTy.structT "B"] [] 0 false = .error msg) :=
  ⟨(c8_parameter_classification [PTy.ctx, PTy.scalar ScalarKind.sint, PTy.structT "B"] ["id"]).1
      [BinderSpec.bctx, BinderSpec.bpath ScalarKind.sint "id", BinderSpec.bbody (PTy.structT "B")]
      rfl,
   (c8_parameter_classification [PTy.structT "A", PTy.structT "B"] []).2 (by decide)⟩

/-- Witness for C10: a GET route whose only parameter is a pointer-typed body
parameter, on a request with an empty body. -/
theorem c10_witness :
    ∃ msg, serve ([BinderSpec.bbody (PTy.structT "T")].map specBinder)
      (fun _ => HRet.r1 none) { method := "GET", query := [], body := none } =
      Outcome.resp { status := 422, body := some (Body.errResp 422 msg) } :=
  c10_empty_body_yields_422 [PTy.ptr (PTy.structT "T")] [] _ (PTy.structT "T")
    (fun _ => HRet.r1 none) { method := "GET", query := [], body := none }
    rfl (by simp) rfl

end Rest
